import Mathlib

/-!
Shallow embedding of the tx-engine transaction processing core.

Monetary amounts are modelled as exact rationals (the source uses an exact
decimal type whose addition, subtraction and comparison are exact); the
per-account ledger HashMap is modelled as an association list with
replace-on-insert semantics; mutating methods become state-passing functions
returning the new state together with the Result value the method returns.
The serialization layer, whose behaviour depends on the stored scale of a
decimal, is modelled separately with an explicit mantissa/scale
representation.
-/

namespace TxEngine

/-- Error kinds of the engine, mirroring TxError in result.rs. -/
inductive TxError where
  | InvalidArgument (msg : String)
  | InvalidOperation (msg : String)
  | IoError (msg : String)
deriving DecidableEq

/-- True exactly for the InvalidOperation error kind. -/
def TxError.isInvalidOperationKind : TxError → Bool
  | .InvalidOperation _ => true
  | _ => false

/-- True exactly for the InvalidArgument error kind. -/
def TxError.isInvalidArgumentKind : TxError → Bool
  | .InvalidArgument _ => true
  | _ => false

/-- True exactly for an error result. -/
def resultIsError : Except TxError Unit → Bool
  | .error _ => true
  | .ok _ => false

/-- True for an error result of kind InvalidOperation. -/
def resultIsInvalidOperation : Except TxError Unit → Bool
  | .error e => e.isInvalidOperationKind
  | .ok _ => false

/-- True for an error result of kind InvalidArgument. -/
def resultIsInvalidArgument : Except TxError Unit → Bool
  | .error e => e.isInvalidArgumentKind
  | .ok _ => false

/-- Dispute state of a ledger entry, mirroring LedgerEntryState in account.rs. -/
inductive LedgerEntryState where
  | Normal
  | Disputed
  | ChargedBack
deriving DecidableEq

/-- One recorded deposit or withdrawal: signed amount plus dispute state,
mirroring LedgerEntry in account.rs. -/
structure LedgerEntry where
  amount : ℚ
  state : LedgerEntryState
deriving DecidableEq

/-- The per-account ledger, modelling HashMap of u32 to LedgerEntry as an
association list whose keys are unique in every reachable state. -/
abbrev Ledger := List (Nat × LedgerEntry)

/-- HashMap.contains_key. -/
def Ledger.containsKey (l : Ledger) (k : Nat) : Bool :=
  l.any (fun p => p.1 == k)

/-- HashMap.get and HashMap.get_mut lookup: the entry stored under key k. -/
def Ledger.getEntry (l : Ledger) (k : Nat) : Option LedgerEntry :=
  (l.find? (fun p => p.1 == k)).map (fun p => p.2)

/-- HashMap.insert: replaces the value under an existing key, appends otherwise. -/
def Ledger.insertEntry (l : Ledger) (k : Nat) (v : LedgerEntry) : Ledger :=
  if l.containsKey k then
    l.map (fun p => if p.1 == k then (p.1, v) else p)
  else
    l ++ [(k, v)]

/-- In-place mutation of the state field of the entry stored under key k,
mirroring the write through HashMap.get_mut in dispute/resolve/chargeback. -/
def Ledger.setState (l : Ledger) (k : Nat) (s : LedgerEntryState) : Ledger :=
  l.map (fun p => if p.1 == k then (p.1, { p.2 with state := s }) else p)

/-- A client account, mirroring Account in account.rs. There is no stored
total field: total is derived. -/
structure Account where
  ledger : Ledger
  id : Nat
  available : ℚ
  held : ℚ
  is_locked : Bool
deriving DecidableEq

/-- Read-only projection of an account, mirroring AccountSummary in account.rs. -/
structure AccountSummary where
  id : Nat
  available : ℚ
  held : ℚ
  total : ℚ
  is_locked : Bool
deriving DecidableEq

namespace Account

/-- Account::new. -/
def new (id : Nat) : Account :=
  { ledger := [], available := 0, held := 0, is_locked := false, id := id }

/-- Account::total, derived at read time. -/
def total (a : Account) : ℚ :=
  a.available + a.held

/-- Account::summary. -/
def summary (a : Account) : AccountSummary :=
  { id := a.id, available := a.available, held := a.held,
    total := a.total, is_locked := a.is_locked }

/-- Account::require_unique_transaction. -/
def require_unique_transaction (a : Account) (tx_id : Nat) : Except TxError Unit :=
  if a.ledger.containsKey tx_id then
    .error (.InvalidOperation ("Attempt to execute a transaction [" ++ toString tx_id ++
      "] twice for account [" ++ toString a.id ++ "]."))
  else
    .ok ()

/-- Account::require_unlocked. -/
def require_unlocked (a : Account) : Except TxError Unit :=
  if a.is_locked then
    .error (.InvalidOperation ("Attempt to execute a transaction on locked account [" ++
      toString a.id ++ "]."))
  else
    .ok ()

/-- Account::withdraw, returning the updated state and the method result. -/
def withdraw (a : Account) (tx_id : Nat) (amount : ℚ) : Account × Except TxError Unit :=
  match a.require_unique_transaction tx_id with
  | .error e => (a, .error e)
  | .ok _ =>
    match a.require_unlocked with
    | .error e => (a, .error e)
    | .ok _ =>
      if amount < 0 then
        (a, .error (.InvalidArgument ("Attempt to withdraw a negative amount in transaction [" ++
          toString tx_id ++ "] for account [" ++ toString a.id ++ "].")))
      else if amount > a.available then
        (a, .error (.InvalidArgument ("Attempt to withdraw an amount greater than balance in transaction [" ++
          toString tx_id ++ "] for account [" ++ toString a.id ++ "].")))
      else
        ({ a with
            ledger := a.ledger.insertEntry tx_id { amount := -amount, state := .Normal },
            available := a.available - amount },
         .ok ())

/-- Account::deposit, returning the updated state and the method result. -/
def deposit (a : Account) (tx_id : Nat) (amount : ℚ) : Account × Except TxError Unit :=
  match a.require_unique_transaction tx_id with
  | .error e => (a, .error e)
  | .ok _ =>
    match a.require_unlocked with
    | .error e => (a, .error e)
    | .ok _ =>
      if amount < 0 then
        (a, .error (.InvalidArgument ("Attempt to deposit a negative amount in transaction [" ++
          toString tx_id ++ "] for account [" ++ toString a.id ++ "].")))
      else
        ({ a with
            ledger := a.ledger.insertEntry tx_id { amount := amount, state := .Normal },
            available := a.available + amount },
         .ok ())

/-- Account::dispute, returning the updated state and the method result. -/
def dispute (a : Account) (tx_id : Nat) : Account × Except TxError Unit :=
  match a.require_unlocked with
  | .error e => (a, .error e)
  | .ok _ =>
    match a.ledger.getEntry tx_id with
    | none => (a, .ok ())
    | some entry =>
      if entry.state ≠ .Normal then
        (a, .ok ())
      else
        ({ a with
            ledger := a.ledger.setState tx_id .Disputed,
            available := a.available - entry.amount,
            held := a.held + entry.amount },
         .ok ())

/-- Account::resolve, returning the updated state and the method result. -/
def resolve (a : Account) (tx_id : Nat) : Account × Except TxError Unit :=
  match a.require_unlocked with
  | .error e => (a, .error e)
  | .ok _ =>
    match a.ledger.getEntry tx_id with
    | none => (a, .ok ())
    | some entry =>
      if entry.state ≠ .Disputed then
        (a, .ok ())
      else
        ({ a with
            ledger := a.ledger.setState tx_id .Normal,
            available := a.available + entry.amount,
            held := a.held - entry.amount },
         .ok ())

/-- Account::chargeback, returning the updated state and the method result. -/
def chargeback (a : Account) (tx_id : Nat) : Account × Except TxError Unit :=
  match a.require_unlocked with
  | .error e => (a, .error e)
  | .ok _ =>
    match a.ledger.getEntry tx_id with
    | none => (a, .ok ())
    | some entry =>
      if entry.state ≠ .Disputed then
        (a, .ok ())
      else
        ({ a with
            ledger := a.ledger.setState tx_id .ChargedBack,
            held := a.held - entry.amount,
            is_locked := true },
         .ok ())

end Account

/-- Kind of an input record, mirroring TransactionKind in transaction.rs. -/
inductive TransactionKind where
  | Withdrawal (amount : ℚ)
  | Deposit (amount : ℚ)
  | Dispute
  | Resolve
  | Chargeback
deriving DecidableEq

/-- One typed input record, mirroring Transaction in transaction.rs. -/
structure Transaction where
  kind : TransactionKind
  client_id : Nat
  tx_id : Nat
deriving DecidableEq

/-- Dispatch of a transaction kind to the matching Account operation,
mirroring the match in TransactionEngine::execute. -/
def Account.apply (a : Account) (kind : TransactionKind) (tx_id : Nat) :
    Account × Except TxError Unit :=
  match kind with
  | .Withdrawal amount => a.withdraw tx_id amount
  | .Deposit amount => a.deposit tx_id amount
  | .Dispute => a.dispute tx_id
  | .Resolve => a.resolve tx_id
  | .Chargeback => a.chargeback tx_id

/-- The engine, mirroring TransactionEngine in engine.rs: a HashMap from
client id to Account, modelled as an association list with unique keys. -/
structure TransactionEngine where
  accounts : List (Nat × Account)
deriving DecidableEq

namespace TransactionEngine

/-- TransactionEngine::new. -/
def new : TransactionEngine := { accounts := [] }

/-- TransactionEngine::execute: look up or lazily create the target account,
dispatch the operation, store the updated account back. -/
def execute (e : TransactionEngine) (t : Transaction) :
    TransactionEngine × Except TxError Unit :=
  let accounts :=
    if e.accounts.any (fun p => p.1 == t.client_id) then e.accounts
    else e.accounts ++ [(t.client_id, Account.new t.client_id)]
  match accounts.find? (fun p => p.1 == t.client_id) with
  | none => ({ accounts := accounts }, .ok ())
  | some p =>
    let r := p.2.apply t.kind t.tx_id
    ({ accounts := accounts.map (fun q => if q.1 == t.client_id then (q.1, r.1) else q) },
     r.2)

/-- TransactionEngine::account_summary: every account's summary, sorted by
ascending client id (sort_by on the id field; a stable comparison sort). -/
def account_summary (e : TransactionEngine) : List AccountSummary :=
  List.insertionSort (fun s t => s.id ≤ t.id) (e.accounts.map (fun p => p.2.summary))

end TransactionEngine

/-- An exact decimal value as stored by the numeric library used in the
source: a signed integer mantissa together with a fractional scale, denoting
mantissa divided by 10 to the scale. Two values with different scales can
denote the same number (0 versus 0.0). -/
structure Decimal where
  mantissa : Int
  scale : Nat
deriving DecidableEq

namespace Decimal

/-- The exact rational number a decimal denotes. -/
def toRat (d : Decimal) : ℚ :=
  (d.mantissa : ℚ) / ((10 : ℚ) ^ d.scale)

/-- Round a nonnegative integer to a multiple quotient with the midpoint
rounded to even (the banker's rounding the source library applies). -/
def roundHalfEven (a m : Nat) : Nat :=
  let q := a / m
  let r := a % m
  let half := m / 2
  if half < r then q + 1
  else if r < half then q
  else if q % 2 = 0 then q else q + 1

/-- Decimal::round_dp with the default midpoint-nearest-even strategy: a
value whose scale does not exceed dp is returned unchanged, otherwise its
magnitude is rounded to dp fractional digits. -/
def round_dp (d : Decimal) (dp : Nat) : Decimal :=
  if d.scale ≤ dp then d
  else
    let m := 10 ^ (d.scale - dp)
    let q := roundHalfEven d.mantissa.natAbs m
    { mantissa := if d.mantissa < 0 then -(q : Int) else (q : Int), scale := dp }

/-- Display of a decimal: the sign, the integer digits (at least one), and,
when the scale is positive, a point followed by exactly scale fractional
digits, left-padded with zeros. -/
def toStr (d : Decimal) : String :=
  let a := d.mantissa.natAbs
  let sign := if d.mantissa < 0 then "-" else ""
  if d.scale = 0 then
    sign ++ toString a
  else
    let p := 10 ^ d.scale
    let fracDigits := toString (a % p)
    let pad := String.mk (List.replicate (d.scale - fracDigits.length) '0')
    sign ++ toString (a / p) ++ "." ++ pad ++ fracDigits

end Decimal

/-- CsvAccountReport::serialize_decimal: value.round_dp(4).to_string(). -/
def serialize_decimal (value : Decimal) : String :=
  (value.round_dp 4).toStr

namespace Ledger

theorem beqNat (a b : Nat) : (a == b) = decide (a = b) := by
  by_cases h : a = b
  · subst h; simp
  · simp [h]

theorem getEntry_cons (p : Nat × LedgerEntry) (l : Ledger) (k : Nat) :
    Ledger.getEntry (p :: l) k = if p.1 = k then some p.2 else l.getEntry k := by
  simp only [Ledger.getEntry, List.find?_cons, beqNat]
  by_cases h : p.1 = k <;> simp [h]

theorem containsKey_cons (p : Nat × LedgerEntry) (l : Ledger) (k : Nat) :
    Ledger.containsKey (p :: l) k = (decide (p.1 = k) || l.containsKey k) := by
  simp only [Ledger.containsKey, List.any_cons, beqNat]

theorem setState_cons (p : Nat × LedgerEntry) (l : Ledger) (k : Nat)
    (s : LedgerEntryState) :
    Ledger.setState (p :: l) k s =
      (if p.1 = k then (p.1, { p.2 with state := s }) else p) :: l.setState k s := by
  simp only [Ledger.setState, List.map_cons, beqNat]
  by_cases h : p.1 = k <;> simp [h]

theorem getEntry_isSome_eq_containsKey (l : Ledger) (k : Nat) :
    (l.getEntry k).isSome = l.containsKey k := by
  induction l with
  | nil => rfl
  | cons p l ih =>
    rw [getEntry_cons, containsKey_cons]
    by_cases h : p.1 = k <;> simp [h, ih]

theorem containsKey_of_getEntry_some {l : Ledger} {k : Nat} {e : LedgerEntry}
    (h : l.getEntry k = some e) : l.containsKey k = true := by
  rw [← getEntry_isSome_eq_containsKey, h]; rfl

theorem getEntry_eq_none_of_not_containsKey {l : Ledger} {k : Nat}
    (h : l.containsKey k = false) : l.getEntry k = none := by
  have hs := getEntry_isSome_eq_containsKey l k
  rw [h] at hs
  exact Option.not_isSome_iff_eq_none.mp (by rw [hs]; exact Bool.false_ne_true)

theorem getEntry_setState_self (l : Ledger) (k : Nat) (s : LedgerEntryState) :
    (l.setState k s).getEntry k = (l.getEntry k).map (fun e => { e with state := s }) := by
  induction l with
  | nil => rfl
  | cons p l ih =>
    rw [setState_cons]
    by_cases h : p.1 = k
    · rw [if_pos h, getEntry_cons, getEntry_cons]
      simp [h]
    · rw [if_neg h, getEntry_cons, getEntry_cons, ih]
      simp [h]

theorem getEntry_setState_ne (l : Ledger) {k k' : Nat} (s : LedgerEntryState)
    (h : k' ≠ k) :
    (l.setState k s).getEntry k' = l.getEntry k' := by
  induction l with
  | nil => rfl
  | cons p l ih =>
    rw [setState_cons]
    by_cases hp : p.1 = k
    · have hp2 : p.1 ≠ k' := by rw [hp]; exact fun hc => h hc.symm
      rw [if_pos hp, getEntry_cons, getEntry_cons, ih]
      simp [hp2]
    · rw [if_neg hp, getEntry_cons, getEntry_cons, ih]

theorem containsKey_setState (l : Ledger) (k k' : Nat) (s : LedgerEntryState) :
    (l.setState k s).containsKey k' = l.containsKey k' := by
  induction l with
  | nil => rfl
  | cons p l ih =>
    rw [setState_cons]
    by_cases hp : p.1 = k
    · rw [if_pos hp, containsKey_cons, containsKey_cons, ih]
    · rw [if_neg hp, containsKey_cons, containsKey_cons, ih]

theorem insertEntry_cons_replace {p : Nat × LedgerEntry} {l : Ledger} {k : Nat}
    (v : LedgerEntry) (hc : Ledger.containsKey (p :: l) k = true) :
    Ledger.insertEntry (p :: l) k v =
      (if p.1 = k then (p.1, v) else p) ::
        l.map (fun q => if q.1 == k then (q.1, v) else q) := by
  rw [Ledger.insertEntry, if_pos hc, List.map_cons]
  by_cases h : p.1 = k <;> simp [h]

theorem insertEntry_map_getEntry_self {l : Ledger} {k : Nat} (v : LedgerEntry)
    (hc : l.containsKey k = true) :
    Ledger.getEntry (l.map (fun q => if q.1 == k then (q.1, v) else q)) k = some v := by
  induction l with
  | nil => exact absurd hc (by simp [Ledger.containsKey])
  | cons p l ih =>
    rw [containsKey_cons] at hc
    rw [List.map_cons]
    by_cases hp : p.1 = k
    · rw [beqNat, if_pos (by simp [hp]), getEntry_cons, if_pos hp]
    · rw [beqNat, if_neg (by simp [hp]), getEntry_cons, if_neg hp]
      exact ih (by simpa [hp] using hc)

theorem getEntry_insertEntry_self (l : Ledger) (k : Nat) (v : LedgerEntry) :
    (l.insertEntry k v).getEntry k = some v := by
  rw [Ledger.insertEntry]
  by_cases hc : l.containsKey k
  · rw [if_pos hc]
    exact insertEntry_map_getEntry_self v hc
  · rw [if_neg hc]
    have hn : l.getEntry k = none :=
      getEntry_eq_none_of_not_containsKey (Bool.not_eq_true _ ▸ by simpa using hc)
    induction l with
    | nil => simp [Ledger.getEntry]
    | cons p l ih =>
      rw [containsKey_cons] at hc
      rw [getEntry_cons] at hn
      by_cases hp : p.1 = k
      · rw [if_pos hp] at hn; exact absurd hn (by simp)
      · rw [if_neg hp] at hn
        rw [List.cons_append, getEntry_cons, if_neg hp]
        exact ih (by simpa [hp] using hc) hn

theorem getEntry_insertEntry_ne (l : Ledger) {k k' : Nat} (v : LedgerEntry)
    (h : k' ≠ k) :
    (l.insertEntry k v).getEntry k' = l.getEntry k' := by
  rw [Ledger.insertEntry]
  by_cases hc : l.containsKey k
  · rw [if_pos hc]
    clear hc
    induction l with
    | nil => rfl
    | cons p l ih =>
      rw [List.map_cons]
      by_cases hp : p.1 = k
      · have hp2 : p.1 ≠ k' := by rw [hp]; exact fun hb => h hb.symm
        rw [beqNat, if_pos (by simp [hp]), getEntry_cons, getEntry_cons, ih]
        simp [hp2]
      · rw [beqNat, if_neg (by simp [hp]), getEntry_cons, getEntry_cons, ih]
  · rw [if_neg hc]
    induction l with
    | nil =>
      simp only [List.nil_append, getEntry_cons]
      rw [if_neg (fun hb => h hb.symm)]
    | cons p l ih =>
      rw [containsKey_cons] at hc
      rw [List.cons_append, getEntry_cons, getEntry_cons]
      by_cases hp : p.1 = k'
      · rw [if_pos hp, if_pos hp]
      · rw [if_neg hp, if_neg hp]
        exact ih (by simp at hc; simpa using hc.2)

theorem containsKey_insertEntry_self (l : Ledger) (k : Nat) (v : LedgerEntry) :
    (l.insertEntry k v).containsKey k = true := by
  rw [← getEntry_isSome_eq_containsKey, getEntry_insertEntry_self]
  rfl

theorem containsKey_insertEntry_of (l : Ledger) {k' : Nat} (k : Nat) (v : LedgerEntry)
    (h : l.containsKey k' = true) :
    (l.insertEntry k v).containsKey k' = true := by
  by_cases hk : k' = k
  · rw [hk]; exact containsKey_insertEntry_self l k v
  · rw [← getEntry_isSome_eq_containsKey, getEntry_insertEntry_ne l v hk,
      getEntry_isSome_eq_containsKey, h]

end Ledger

/-- Sequential application of a list of operations to an account,
mirroring a caller feeding transactions one at a time. -/
def Account.applyAll (a : Account) (ops : List (TransactionKind × Nat)) : Account :=
  ops.foldl (fun s p => (s.apply p.1 p.2).1) a

namespace Account

theorem applyAll_nil (a : Account) : a.applyAll [] = a := rfl

theorem applyAll_cons (a : Account) (op : TransactionKind × Nat)
    (ops : List (TransactionKind × Nat)) :
    a.applyAll (op :: ops) = ((a.apply op.1 op.2).1).applyAll ops := rfl

theorem apply_locked {a : Account} (h : a.is_locked = true)
    (kind : TransactionKind) (tx : Nat) :
    (a.apply kind tx).1 = a ∧ resultIsInvalidOperation (a.apply kind tx).2 = true := by
  cases kind <;>
    simp only [Account.apply, Account.withdraw, Account.deposit, Account.dispute,
      Account.resolve, Account.chargeback, Account.require_unique_transaction,
      Account.require_unlocked, h, if_true] <;>
    by_cases hc : a.ledger.containsKey tx <;>
      simp [hc, resultIsInvalidOperation, TxError.isInvalidOperationKind]

theorem dispute_of_normal {a : Account} {tx : Nat} {e : LedgerEntry}
    (hl : a.is_locked = false) (he : a.ledger.getEntry tx = some e)
    (hn : e.state = .Normal) :
    a.dispute tx =
      ({ a with ledger := a.ledger.setState tx .Disputed,
                available := a.available - e.amount,
                held := a.held + e.amount }, .ok ()) := by
  simp [Account.dispute, Account.require_unlocked, hl, he, hn]

theorem dispute_of_none {a : Account} {tx : Nat}
    (hl : a.is_locked = false) (he : a.ledger.getEntry tx = none) :
    a.dispute tx = (a, .ok ()) := by
  simp [Account.dispute, Account.require_unlocked, hl, he]

theorem dispute_of_not_normal {a : Account} {tx : Nat} {e : LedgerEntry}
    (hl : a.is_locked = false) (he : a.ledger.getEntry tx = some e)
    (hn : e.state ≠ .Normal) :
    a.dispute tx = (a, .ok ()) := by
  simp [Account.dispute, Account.require_unlocked, hl, he, hn]

theorem resolve_of_disputed {a : Account} {tx : Nat} {e : LedgerEntry}
    (hl : a.is_locked = false) (he : a.ledger.getEntry tx = some e)
    (hd : e.state = .Disputed) :
    a.resolve tx =
      ({ a with ledger := a.ledger.setState tx .Normal,
                available := a.available + e.amount,
                held := a.held - e.amount }, .ok ()) := by
  simp [Account.resolve, Account.require_unlocked, hl, he, hd]

theorem resolve_of_none {a : Account} {tx : Nat}
    (hl : a.is_locked = false) (he : a.ledger.getEntry tx = none) :
    a.resolve tx = (a, .ok ()) := by
  simp [Account.resolve, Account.require_unlocked, hl, he]

theorem resolve_of_not_disputed {a : Account} {tx : Nat} {e : LedgerEntry}
    (hl : a.is_locked = false) (he : a.ledger.getEntry tx = some e)
    (hd : e.state ≠ .Disputed) :
    a.resolve tx = (a, .ok ()) := by
  simp [Account.resolve, Account.require_unlocked, hl, he, hd]

theorem chargeback_of_disputed {a : Account} {tx : Nat} {e : LedgerEntry}
    (hl : a.is_locked = false) (he : a.ledger.getEntry tx = some e)
    (hd : e.state = .Disputed) :
    a.chargeback tx =
      ({ a with ledger := a.ledger.setState tx .ChargedBack,
                held := a.held - e.amount,
                is_locked := true }, .ok ()) := by
  simp [Account.chargeback, Account.require_unlocked, hl, he, hd]

theorem chargeback_of_none {a : Account} {tx : Nat}
    (hl : a.is_locked = false) (he : a.ledger.getEntry tx = none) :
    a.chargeback tx = (a, .ok ()) := by
  simp [Account.chargeback, Account.require_unlocked, hl, he]

theorem chargeback_of_not_disputed {a : Account} {tx : Nat} {e : LedgerEntry}
    (hl : a.is_locked = false) (he : a.ledger.getEntry tx = some e)
    (hd : e.state ≠ .Disputed) :
    a.chargeback tx = (a, .ok ()) := by
  simp [Account.chargeback, Account.require_unlocked, hl, he, hd]

theorem withdraw_of_dup {a : Account} {tx : Nat} (amount : ℚ)
    (hc : a.ledger.containsKey tx = true) :
    (a.withdraw tx amount).1 = a ∧
    resultIsInvalidOperation (a.withdraw tx amount).2 = true := by
  simp [Account.withdraw, Account.require_unique_transaction, hc,
    resultIsInvalidOperation, TxError.isInvalidOperationKind]

theorem deposit_of_dup {a : Account} {tx : Nat} (amount : ℚ)
    (hc : a.ledger.containsKey tx = true) :
    (a.deposit tx amount).1 = a ∧
    resultIsInvalidOperation (a.deposit tx amount).2 = true := by
  simp [Account.deposit, Account.require_unique_transaction, hc,
    resultIsInvalidOperation, TxError.isInvalidOperationKind]

theorem withdraw_of_ok {a : Account} {tx : Nat} {amount : ℚ}
    (hfresh : a.ledger.containsKey tx = false) (hl : a.is_locked = false)
    (h0 : ¬amount < 0) (hle : ¬amount > a.available) :
    a.withdraw tx amount =
      ({ a with
          ledger := a.ledger.insertEntry tx { amount := -amount, state := .Normal },
          available := a.available - amount }, .ok ()) := by
  simp [Account.withdraw, Account.require_unique_transaction,
    Account.require_unlocked, hfresh, hl, h0, hle]

theorem deposit_of_ok {a : Account} {tx : Nat} {amount : ℚ}
    (hfresh : a.ledger.containsKey tx = false) (hl : a.is_locked = false)
    (h0 : ¬amount < 0) :
    a.deposit tx amount =
      ({ a with
          ledger := a.ledger.insertEntry tx { amount := amount, state := .Normal },
          available := a.available + amount }, .ok ()) := by
  simp [Account.deposit, Account.require_unique_transaction,
    Account.require_unlocked, hfresh, hl, h0]

theorem withdraw_of_neg {a : Account} {tx : Nat} {amount : ℚ}
    (hfresh : a.ledger.containsKey tx = false) (hl : a.is_locked = false)
    (hneg : amount < 0) :
    (a.withdraw tx amount).1 = a ∧
    resultIsInvalidArgument (a.withdraw tx amount).2 = true := by
  simp [Account.withdraw, Account.require_unique_transaction,
    Account.require_unlocked, hfresh, hl, hneg,
    resultIsInvalidArgument, TxError.isInvalidArgumentKind]

theorem withdraw_of_insufficient {a : Account} {tx : Nat} {amount : ℚ}
    (hfresh : a.ledger.containsKey tx = false) (hl : a.is_locked = false)
    (h0 : ¬amount < 0) (hgt : amount > a.available) :
    (a.withdraw tx amount).1 = a ∧
    resultIsInvalidArgument (a.withdraw tx amount).2 = true := by
  simp [Account.withdraw, Account.require_unique_transaction,
    Account.require_unlocked, hfresh, hl, h0, hgt,
    resultIsInvalidArgument, TxError.isInvalidArgumentKind]

theorem deposit_of_neg {a : Account} {tx : Nat} {amount : ℚ}
    (hfresh : a.ledger.containsKey tx = false) (hl : a.is_locked = false)
    (hneg : amount < 0) :
    (a.deposit tx amount).1 = a ∧
    resultIsInvalidArgument (a.deposit tx amount).2 = true := by
  simp [Account.deposit, Account.require_unique_transaction,
    Account.require_unlocked, hfresh, hl, hneg,
    resultIsInvalidArgument, TxError.isInvalidArgumentKind]

theorem applyAll_locked {a : Account} (h : a.is_locked = true)
    (ops : List (TransactionKind × Nat)) : a.applyAll ops = a := by
  induction ops with
  | nil => rfl
  | cons op ops ih => rw [applyAll_cons, (apply_locked h op.1 op.2).1, ih]

theorem apply_preserves_chargedback {b : Account} {tx : Nat} {e : LedgerEntry}
    (he : b.ledger.getEntry tx = some e) (hs : e.state = .ChargedBack)
    (kind : TransactionKind) (tx2 : Nat) :
    ((b.apply kind tx2).1).ledger.getEntry tx = some e := by
  by_cases hlk : b.is_locked = true
  · rw [(apply_locked hlk kind tx2).1]; exact he
  · have hl : b.is_locked = false := by simpa using hlk
    have hck : b.ledger.containsKey tx = true := Ledger.containsKey_of_getEntry_some he
    cases kind with
    | Withdrawal amount =>
      simp only [Account.apply]
      by_cases hdup : b.ledger.containsKey tx2
      · rw [(withdraw_of_dup amount hdup).1]; exact he
      · have hfresh : b.ledger.containsKey tx2 = false := by simpa using hdup
        have hne : tx ≠ tx2 := fun hc => by rw [hc] at hck; rw [hck] at hfresh; cases hfresh
        by_cases hneg : amount < 0
        · rw [(withdraw_of_neg hfresh hl hneg).1]; exact he
        · by_cases hgt : amount > b.available
          · rw [(withdraw_of_insufficient hfresh hl hneg hgt).1]; exact he
          · rw [withdraw_of_ok hfresh hl hneg hgt]
            exact (Ledger.getEntry_insertEntry_ne b.ledger _ hne).trans he
    | Deposit amount =>
      simp only [Account.apply]
      by_cases hdup : b.ledger.containsKey tx2
      · rw [(deposit_of_dup amount hdup).1]; exact he
      · have hfresh : b.ledger.containsKey tx2 = false := by simpa using hdup
        have hne : tx ≠ tx2 := fun hc => by rw [hc] at hck; rw [hck] at hfresh; cases hfresh
        by_cases hneg : amount < 0
        · rw [(deposit_of_neg hfresh hl hneg).1]; exact he
        · rw [deposit_of_ok hfresh hl hneg]
          exact (Ledger.getEntry_insertEntry_ne b.ledger _ hne).trans he
    | Dispute =>
      simp only [Account.apply]
      by_cases htx : tx2 = tx
      · rw [dispute_of_not_normal hl (htx ▸ he) (by rw [hs]; intro hc; cases hc)]
        exact he
      · cases hget : b.ledger.getEntry tx2 with
        | none => rw [dispute_of_none hl hget]; exact he
        | some e2 =>
          by_cases hn : e2.state = .Normal
          · rw [dispute_of_normal hl hget hn]
            exact (Ledger.getEntry_setState_ne b.ledger _ (fun hc => htx hc.symm)).trans he
          · rw [dispute_of_not_normal hl hget hn]; exact he
    | Resolve =>
      simp only [Account.apply]
      by_cases htx : tx2 = tx
      · rw [resolve_of_not_disputed hl (htx ▸ he) (by rw [hs]; intro hc; cases hc)]
        exact he
      · cases hget : b.ledger.getEntry tx2 with
        | none => rw [resolve_of_none hl hget]; exact he
        | some e2 =>
          by_cases hd : e2.state = .Disputed
          · rw [resolve_of_disputed hl hget hd]
            exact (Ledger.getEntry_setState_ne b.ledger _ (fun hc => htx hc.symm)).trans he
          · rw [resolve_of_not_disputed hl hget hd]; exact he
    | Chargeback =>
      simp only [Account.apply]
      by_cases htx : tx2 = tx
      · rw [chargeback_of_not_disputed hl (htx ▸ he) (by rw [hs]; intro hc; cases hc)]
        exact he
      · cases hget : b.ledger.getEntry tx2 with
        | none => rw [chargeback_of_none hl hget]; exact he
        | some e2 =>
          by_cases hd : e2.state = .Disputed
          · rw [chargeback_of_disputed hl hget hd]
            exact (Ledger.getEntry_setState_ne b.ledger _ (fun hc => htx hc.symm)).trans he
          · rw [chargeback_of_not_disputed hl hget hd]; exact he

theorem applyAll_preserves_chargedback {b : Account} {tx : Nat} {e : LedgerEntry}
    (he : b.ledger.getEntry tx = some e) (hs : e.state = .ChargedBack)
    (ops : List (TransactionKind × Nat)) :
    (b.applyAll ops).ledger.getEntry tx = some e := by
  induction ops generalizing b with
  | nil => exact he
  | cons op ops ih =>
    rw [applyAll_cons]
    exact ih (apply_preserves_chargedback he hs op.1 op.2)

theorem apply_preserves_key {b : Account} {tx : Nat}
    (hc : b.ledger.containsKey tx = true) (kind : TransactionKind) (tx2 : Nat) :
    ((b.apply kind tx2).1).ledger.containsKey tx = true := by
  by_cases hlk : b.is_locked = true
  · rw [(apply_locked hlk kind tx2).1]; exact hc
  · have hl : b.is_locked = false := by simpa using hlk
    cases kind with
    | Withdrawal amount =>
      simp only [Account.apply]
      by_cases hdup : b.ledger.containsKey tx2
      · rw [(withdraw_of_dup amount hdup).1]; exact hc
      · have hfresh : b.ledger.containsKey tx2 = false := by simpa using hdup
        by_cases hneg : amount < 0
        · rw [(withdraw_of_neg hfresh hl hneg).1]; exact hc
        · by_cases hgt : amount > b.available
          · rw [(withdraw_of_insufficient hfresh hl hneg hgt).1]; exact hc
          · rw [withdraw_of_ok hfresh hl hneg hgt]
            exact Ledger.containsKey_insertEntry_of b.ledger tx2 _ hc
    | Deposit amount =>
      simp only [Account.apply]
      by_cases hdup : b.ledger.containsKey tx2
      · rw [(deposit_of_dup amount hdup).1]; exact hc
      · have hfresh : b.ledger.containsKey tx2 = false := by simpa using hdup
        by_cases hneg : amount < 0
        · rw [(deposit_of_neg hfresh hl hneg).1]; exact hc
        · rw [deposit_of_ok hfresh hl hneg]
          exact Ledger.containsKey_insertEntry_of b.ledger tx2 _ hc
    | Dispute =>
      simp only [Account.apply]
      cases hget : b.ledger.getEntry tx2 with
      | none => rw [dispute_of_none hl hget]; exact hc
      | some e2 =>
        by_cases hn : e2.state = .Normal
        · rw [dispute_of_normal hl hget hn]
          rw [Ledger.containsKey_setState]; exact hc
        · rw [dispute_of_not_normal hl hget hn]; exact hc
    | Resolve =>
      simp only [Account.apply]
      cases hget : b.ledger.getEntry tx2 with
      | none => rw [resolve_of_none hl hget]; exact hc
      | some e2 =>
        by_cases hd : e2.state = .Disputed
        · rw [resolve_of_disputed hl hget hd]
          rw [Ledger.containsKey_setState]; exact hc
        · rw [resolve_of_not_disputed hl hget hd]; exact hc
    | Chargeback =>
      simp only [Account.apply]
      cases hget : b.ledger.getEntry tx2 with
      | none => rw [chargeback_of_none hl hget]; exact hc
      | some e2 =>
        by_cases hd : e2.state = .Disputed
        · rw [chargeback_of_disputed hl hget hd]
          rw [Ledger.containsKey_setState]; exact hc
        · rw [chargeback_of_not_disputed hl hget hd]; exact hc

theorem applyAll_preserves_key {b : Account} {tx : Nat}
    (hc : b.ledger.containsKey tx = true)
    (ops : List (TransactionKind × Nat)) :
    (b.applyAll ops).ledger.containsKey tx = true := by
  induction ops generalizing b with
  | nil => exact hc
  | cons op ops ih =>
    rw [applyAll_cons]
    exact ih (apply_preserves_key hc op.1 op.2)

end Account

theorem resultIsError_of_invalidArgument {r : Except TxError Unit}
    (h : resultIsInvalidArgument r = true) : resultIsError r = true := by
  cases r <;> simp_all [resultIsInvalidArgument, resultIsError]

theorem Account.deposit_of_locked {a : Account} {tx : Nat} (amount : ℚ)
    (hfresh : a.ledger.containsKey tx = false) (hlk : a.is_locked = true) :
    (a.deposit tx amount).1 = a ∧
    resultIsInvalidOperation (a.deposit tx amount).2 = true := by
  simp [Account.deposit, Account.require_unique_transaction,
    Account.require_unlocked, hfresh, hlk,
    resultIsInvalidOperation, TxError.isInvalidOperationKind]

theorem Account.withdraw_of_locked {a : Account} {tx : Nat} (amount : ℚ)
    (hfresh : a.ledger.containsKey tx = false) (hlk : a.is_locked = true) :
    (a.withdraw tx amount).1 = a ∧
    resultIsInvalidOperation (a.withdraw tx amount).2 = true := by
  simp [Account.withdraw, Account.require_unique_transaction,
    Account.require_unlocked, hfresh, hlk,
    resultIsInvalidOperation, TxError.isInvalidOperationKind]

theorem Account.deposit_ok_contains {a : Account} {tx : Nat} {amount : ℚ}
    (h : (a.deposit tx amount).2 = .ok ()) :
    ((a.deposit tx amount).1).ledger.containsKey tx = true := by
  by_cases hdup : a.ledger.containsKey tx
  · have h2 := (Account.deposit_of_dup amount hdup).2
    rw [h] at h2
    simp [resultIsInvalidOperation] at h2
  · have hfresh : a.ledger.containsKey tx = false := by simpa using hdup
    by_cases hlk : a.is_locked = true
    · have h2 := (Account.deposit_of_locked amount hfresh hlk).2
      rw [h] at h2
      simp [resultIsInvalidOperation] at h2
    · have hl : a.is_locked = false := by simpa using hlk
      by_cases hneg : amount < 0
      · have h2 := (Account.deposit_of_neg hfresh hl hneg).2
        rw [h] at h2
        simp [resultIsInvalidArgument] at h2
      · rw [Account.deposit_of_ok hfresh hl hneg]
        exact Ledger.containsKey_insertEntry_self a.ledger tx _

theorem Account.withdraw_ok_contains {a : Account} {tx : Nat} {amount : ℚ}
    (h : (a.withdraw tx amount).2 = .ok ()) :
    ((a.withdraw tx amount).1).ledger.containsKey tx = true := by
  by_cases hdup : a.ledger.containsKey tx
  · have h2 := (Account.withdraw_of_dup amount hdup).2
    rw [h] at h2
    simp [resultIsInvalidOperation] at h2
  · have hfresh : a.ledger.containsKey tx = false := by simpa using hdup
    by_cases hlk : a.is_locked = true
    · have h2 := (Account.withdraw_of_locked amount hfresh hlk).2
      rw [h] at h2
      simp [resultIsInvalidOperation] at h2
    · have hl : a.is_locked = false := by simpa using hlk
      by_cases hneg : amount < 0
      · have h2 := (Account.withdraw_of_neg hfresh hl hneg).2
        rw [h] at h2
        simp [resultIsInvalidArgument] at h2
      · by_cases hgt : amount > a.available
        · have h2 := (Account.withdraw_of_insufficient hfresh hl hneg hgt).2
          rw [h] at h2
          simp [resultIsInvalidArgument] at h2
        · rw [Account.withdraw_of_ok hfresh hl hneg hgt]
          exact Ledger.containsKey_insertEntry_self a.ledger tx _

theorem TransactionEngine.fresh_deposit_pair (c1 c2 tx : Nat) (amount : ℚ)
    (hne : c1 ≠ c2) (h0 : ¬amount < 0) :
    (TransactionEngine.new.execute ⟨.Deposit amount, c1, tx⟩).2 = .ok () ∧
    ((TransactionEngine.new.execute ⟨.Deposit amount, c1, tx⟩).1.execute
      ⟨.Deposit amount, c2, tx⟩).2 = .ok () := by
  have hdep : ∀ c : Nat, (Account.new c).deposit tx amount =
      ({ ledger := [(tx, { amount := amount, state := .Normal })],
         id := c, available := 0 + amount, held := 0, is_locked := false }, .ok ()) := by
    intro c
    have hfr : (Account.new c).ledger.containsKey tx = false := rfl
    have hlk : (Account.new c).is_locked = false := rfl
    rw [Account.deposit_of_ok hfr hlk h0]
    rfl
  have hbeq : (c1 == c2) = false := by
    rw [Ledger.beqNat, decide_eq_false hne]
  constructor
  · simp [TransactionEngine.execute, TransactionEngine.new, Account.apply, hdep]
  · simp [TransactionEngine.execute, TransactionEngine.new, Account.apply, hdep, hbeq]

/-- Scenario account: client 1 deposits 100 (tx 23) and withdraws 64 (tx 24). -/
def scenarioB : Account := (((Account.new 1).deposit 23 100).1.withdraw 24 64).1

/-- Scenario account: client 1 deposits 123.23 (tx 23) and disputes tx 23. -/
def scenarioCd : Account := (((Account.new 1).deposit 23 (12323/100)).1.dispute 23).1

/-- Scenario account: client 1 deposits 123.23 (tx 23), disputes and charges
back tx 23. -/
def scenarioC : Account := (scenarioCd.chargeback 23).1

/-- Scenario account: client 1 deposits 10 (tx 23). -/
def scenarioD : Account := ((Account.new 1).deposit 23 10).1

theorem scenarioB_eq :
    scenarioB =
      { ledger := [(23, { amount := 100, state := .Normal }),
                   (24, { amount := -64, state := .Normal })],
        id := 1, available := 36, held := 0, is_locked := false } := by
  norm_num [scenarioB, Account.deposit, Account.withdraw,
    Account.require_unique_transaction, Account.require_unlocked,
    Ledger.containsKey, Ledger.insertEntry, Account.new, Account.mk.injEq]

theorem scenarioCd_eq :
    scenarioCd =
      { ledger := [(23, { amount := 12323/100, state := .Disputed })],
        id := 1, available := 0, held := 12323/100, is_locked := false } := by
  norm_num [scenarioCd, Account.deposit, Account.dispute,
    Account.require_unique_transaction, Account.require_unlocked,
    Ledger.containsKey, Ledger.insertEntry, Ledger.getEntry, Ledger.setState,
    Account.new, Account.mk.injEq]

theorem scenarioC_eq :
    scenarioC =
      { ledger := [(23, { amount := 12323/100, state := .ChargedBack })],
        id := 1, available := 0, held := 0, is_locked := true } := by
  rw [scenarioC, scenarioCd_eq]
  norm_num [Account.chargeback, Account.require_unlocked,
    Ledger.getEntry, Ledger.setState, Account.mk.injEq]

theorem scenarioD_eq :
    scenarioD =
      { ledger := [(23, { amount := 10, state := .Normal })],
        id := 1, available := 10, held := 0, is_locked := false } := by
  norm_num [scenarioD, Account.deposit, Account.require_unique_transaction,
    Account.require_unlocked, Ledger.containsKey, Ledger.insertEntry,
    Account.new, Account.mk.injEq]

/-- C1: on an unlocked account, disputing a transaction whose ledger entry is
in Normal state succeeds, transitions the entry to Disputed, decreases
available by the entry's signed amount and increases held by the same signed
amount; the derived total and the lock flag are unchanged. -/
theorem dispute_normal_moves_signed_amount (a : Account) (tx : Nat) (e : LedgerEntry)
    (hl : a.is_locked = false) (he : a.ledger.getEntry tx = some e)
    (hn : e.state = .Normal) :
    a.dispute tx =
      ({ a with ledger := a.ledger.setState tx .Disputed,
                available := a.available - e.amount,
                held := a.held + e.amount }, .ok ()) ∧
    (a.dispute tx).1.ledger.getEntry tx = some { e with state := .Disputed } ∧
    (a.dispute tx).1.total = a.total ∧
    (a.dispute tx).1.is_locked = false := by
  have h := Account.dispute_of_normal hl he hn
  refine ⟨h, ?_, ?_, ?_⟩
  · rw [h]
    show (a.ledger.setState tx .Disputed).getEntry tx = _
    rw [Ledger.getEntry_setState_self, he]
    rfl
  · rw [h]
    show (a.available - e.amount) + (a.held + e.amount) = a.available + a.held
    ring
  · rw [h]
    exact hl

/-- Witness for C1: Scenario B, disputing the withdrawal tx 24 after a
deposit of 100 and a withdrawal of 64 yields available 100, held -64,
total 36, unlocked. -/
theorem dispute_normal_moves_signed_amount_witness :
    scenarioB.is_locked = false ∧
    scenarioB.ledger.getEntry 24 = some { amount := -64, state := .Normal } ∧
    (scenarioB.dispute 24).2 = .ok () ∧
    (scenarioB.dispute 24).1.available = 100 ∧
    (scenarioB.dispute 24).1.held = -64 ∧
    (scenarioB.dispute 24).1.total = 36 ∧
    (scenarioB.dispute 24).1.is_locked = false := by
  have hget : scenarioB.ledger.getEntry 24 = some { amount := -64, state := .Normal } := by
    rw [scenarioB_eq]
    simp [Ledger.getEntry_cons]
  have h := dispute_normal_moves_signed_amount scenarioB 24
    { amount := -64, state := .Normal } (by rw [scenarioB_eq]) hget rfl
  refine ⟨by rw [scenarioB_eq], hget, by rw [h.1], ?_, ?_, ?_, h.2.2.2⟩
  · rw [h.1]
    show scenarioB.available - -64 = 100
    rw [scenarioB_eq]
    norm_num
  · rw [h.1]
    show scenarioB.held + -64 = -64
    rw [scenarioB_eq]
    norm_num
  · rw [h.1]
    show (scenarioB.available - -64) + (scenarioB.held + -64) = 36
    rw [scenarioB_eq]
    norm_num

/-- C2: once an account is locked, every operation returns an
InvalidOperation error and leaves the account (available, held, lock flag
and ledger) unchanged; in particular no sequence of operations ever changes
the account again, so the lock is never cleared. -/
theorem locked_account_is_permanent (a : Account) (h : a.is_locked = true)
    (kind : TransactionKind) (tx : Nat) :
    (a.apply kind tx).1 = a ∧
    resultIsInvalidOperation (a.apply kind tx).2 = true ∧
    ∀ ops : List (TransactionKind × Nat), a.applyAll ops = a :=
  ⟨(Account.apply_locked h kind tx).1, (Account.apply_locked h kind tx).2,
    Account.applyAll_locked h⟩

/-- Witness for C2: the account of Scenario C is locked; a further deposit
fails with InvalidOperation and changes nothing, and an arbitrary sequence
of further operations leaves the account exactly as it was. -/
theorem locked_account_is_permanent_witness :
    (scenarioC.apply (.Deposit 5) 99).1 = scenarioC ∧
    resultIsInvalidOperation ((scenarioC.apply (.Deposit 5) 99).2) = true ∧
    scenarioC.applyAll [(.Dispute, 23), (.Withdrawal 1, 50), (.Resolve, 23)] = scenarioC := by
  have h := locked_account_is_permanent scenarioC (by rw [scenarioC_eq]) (.Deposit 5) 99
  exact ⟨h.1, h.2.1, h.2.2 _⟩

/-- C3: on an unlocked account, charging back a Disputed entry succeeds,
transitions the entry to ChargedBack, decreases held by the entry's signed
amount, leaves available unchanged and locks the account; the entry stays
ChargedBack under every later sequence of operations. -/
theorem chargeback_disputed_locks (a : Account) (tx : Nat) (e : LedgerEntry)
    (hl : a.is_locked = false) (he : a.ledger.getEntry tx = some e)
    (hd : e.state = .Disputed) :
    a.chargeback tx =
      ({ a with ledger := a.ledger.setState tx .ChargedBack,
                held := a.held - e.amount,
                is_locked := true }, .ok ()) ∧
    (a.chargeback tx).1.ledger.getEntry tx = some { e with state := .ChargedBack } ∧
    (a.chargeback tx).1.available = a.available ∧
    (a.chargeback tx).1.is_locked = true ∧
    ∀ ops : List (TransactionKind × Nat),
      (((a.chargeback tx).1.applyAll ops).ledger.getEntry tx =
        some { e with state := .ChargedBack }) := by
  have h := Account.chargeback_of_disputed hl he hd
  have hafter : (a.chargeback tx).1.ledger.getEntry tx =
      some { e with state := .ChargedBack } := by
    rw [h]
    show (a.ledger.setState tx .ChargedBack).getEntry tx = _
    rw [Ledger.getEntry_setState_self, he]
    rfl
  refine ⟨h, hafter, by rw [h], by rw [h], ?_⟩
  intro ops
  exact Account.applyAll_preserves_chargedback hafter rfl ops

/-- Witness for C3: Scenario C, deposit 123.23 (tx 23), dispute, chargeback
yields available 0, held 0, total 0, locked, and the entry stays ChargedBack
under a later operation. -/
theorem chargeback_disputed_locks_witness :
    scenarioCd.is_locked = false ∧
    scenarioCd.ledger.getEntry 23 = some { amount := 12323/100, state := .Disputed } ∧
    (scenarioCd.chargeback 23).2 = .ok () ∧
    scenarioC.available = 0 ∧ scenarioC.held = 0 ∧ scenarioC.total = 0 ∧
    scenarioC.is_locked = true ∧
    (scenarioC.applyAll [(.Deposit 7, 99)]).ledger.getEntry 23 =
      some { amount := 12323/100, state := .ChargedBack } := by
  have hget : scenarioCd.ledger.getEntry 23 =
      some { amount := 12323/100, state := .Disputed } := by
    rw [scenarioCd_eq]
    simp [Ledger.getEntry_cons]
  have h := chargeback_disputed_locks scenarioCd 23
    { amount := 12323/100, state := .Disputed } (by rw [scenarioCd_eq]) hget rfl
  refine ⟨by rw [scenarioCd_eq], hget, by rw [h.1], by rw [scenarioC_eq],
    by rw [scenarioC_eq], ?_, by rw [scenarioC_eq], h.2.2.2.2 _⟩
  rw [scenarioC_eq]
  show (0 : ℚ) + 0 = 0
  norm_num

/-- C4: withdrawing a fresh transaction id from an unlocked account fails
exactly when the amount is negative or exceeds available; on failure the
error is InvalidArgument and the account is unchanged; on success a Normal
entry with the negated amount is inserted and available is decreased. -/
theorem withdraw_amount_rules (a : Account) (tx : Nat) (amount : ℚ)
    (hfresh : a.ledger.containsKey tx = false) (hl : a.is_locked = false) :
    (resultIsError (a.withdraw tx amount).2 = true ↔
      amount < 0 ∨ a.available < amount) ∧
    (amount < 0 ∨ a.available < amount →
      (a.withdraw tx amount).1 = a ∧
      resultIsInvalidArgument (a.withdraw tx amount).2 = true) ∧
    (¬(amount < 0 ∨ a.available < amount) →
      a.withdraw tx amount =
        ({ a with
            ledger := a.ledger.insertEntry tx { amount := -amount, state := .Normal },
            available := a.available - amount }, .ok ())) := by
  have hfail : amount < 0 ∨ a.available < amount →
      (a.withdraw tx amount).1 = a ∧
      resultIsInvalidArgument (a.withdraw tx amount).2 = true := by
    intro hor
    by_cases hneg : amount < 0
    · exact Account.withdraw_of_neg hfresh hl hneg
    · have hgt : amount > a.available := hor.resolve_left hneg
      exact Account.withdraw_of_insufficient hfresh hl hneg hgt
  have hok : ¬(amount < 0 ∨ a.available < amount) →
      a.withdraw tx amount =
        ({ a with
            ledger := a.ledger.insertEntry tx { amount := -amount, state := .Normal },
            available := a.available - amount }, .ok ()) := by
    intro hno
    push_neg at hno
    exact Account.withdraw_of_ok hfresh hl (not_lt.mpr hno.1) (not_lt.mpr hno.2)
  refine ⟨⟨?_, ?_⟩, hfail, hok⟩
  · intro herr
    by_contra hno
    rw [hok hno] at herr
    cases herr
  · intro hor
    exact resultIsError_of_invalidArgument (hfail hor).2

/-- Witness for C4: Scenario D, withdrawing 10.0001 against an available
balance of exactly 10 fails with InvalidArgument and leaves the account
unchanged. -/
theorem withdraw_amount_rules_witness :
    scenarioD.ledger.containsKey 24 = false ∧
    scenarioD.is_locked = false ∧
    scenarioD.available = 10 ∧
    (scenarioD.withdraw 24 (100001/10000)).1 = scenarioD ∧
    resultIsInvalidArgument ((scenarioD.withdraw 24 (100001/10000)).2) = true := by
  have hfresh : scenarioD.ledger.containsKey 24 = false := by
    rw [scenarioD_eq]
    decide
  have hgt : scenarioD.available < 100001/10000 := by
    rw [scenarioD_eq]
    norm_num
  have h := withdraw_amount_rules scenarioD 24 (100001/10000) hfresh (by rw [scenarioD_eq])
  exact ⟨hfresh, by rw [scenarioD_eq], by rw [scenarioD_eq],
    (h.2.1 (Or.inr hgt)).1, (h.2.1 (Or.inr hgt)).2⟩

/-- C5: a deposit or withdrawal whose transaction id already exists in the
account's ledger fails with InvalidOperation and changes nothing; a
successful deposit or withdrawal records its id in the ledger, and no later
operation ever removes a recorded id (so no two successful calls share an
id); ids are scoped per account: the same id deposited to two different
clients succeeds for both. -/
theorem duplicate_tx_rejected_and_ids_scoped (a : Account) (tx : Nat) (amount : ℚ) :
    (a.ledger.containsKey tx = true →
      (a.deposit tx amount).1 = a ∧
      resultIsInvalidOperation (a.deposit tx amount).2 = true ∧
      (a.withdraw tx amount).1 = a ∧
      resultIsInvalidOperation (a.withdraw tx amount).2 = true) ∧
    ((a.deposit tx amount).2 = .ok () →
      ((a.deposit tx amount).1).ledger.containsKey tx = true) ∧
    ((a.withdraw tx amount).2 = .ok () →
      ((a.withdraw tx amount).1).ledger.containsKey tx = true) ∧
    (a.ledger.containsKey tx = true →
      ∀ ops : List (TransactionKind × Nat),
        (a.applyAll ops).ledger.containsKey tx = true) ∧
    (∀ c1 c2 : Nat, c1 ≠ c2 → ¬amount < 0 →
      (TransactionEngine.new.execute ⟨.Deposit amount, c1, tx⟩).2 = .ok () ∧
      ((TransactionEngine.new.execute ⟨.Deposit amount, c1, tx⟩).1.execute
        ⟨.Deposit amount, c2, tx⟩).2 = .ok ()) :=
  ⟨fun hdup => ⟨(Account.deposit_of_dup amount hdup).1,
      (Account.deposit_of_dup amount hdup).2,
      (Account.withdraw_of_dup amount hdup).1,
      (Account.withdraw_of_dup amount hdup).2⟩,
    Account.deposit_ok_contains,
    Account.withdraw_ok_contains,
    fun hc ops => Account.applyAll_preserves_key hc ops,
    fun c1 c2 hne h0 => TransactionEngine.fresh_deposit_pair c1 c2 tx amount hne h0⟩

/-- Witness for C5: re-depositing tx 23 on the Scenario D account fails with
InvalidOperation and changes nothing, while depositing the same tx id 23 for
clients 1 and 2 on a fresh engine succeeds for both. -/
theorem duplicate_tx_rejected_and_ids_scoped_witness :
    (scenarioD.deposit 23 5).1 = scenarioD ∧
    resultIsInvalidOperation ((scenarioD.deposit 23 5).2) = true ∧
    (TransactionEngine.new.execute ⟨.Deposit 5, 1, 23⟩).2 = .ok () ∧
    ((TransactionEngine.new.execute ⟨.Deposit 5, 1, 23⟩).1.execute
      ⟨.Deposit 5, 2, 23⟩).2 = .ok () := by
  have h := duplicate_tx_rejected_and_ids_scoped scenarioD 23 5
  have hc : scenarioD.ledger.containsKey 23 = true := by
    rw [scenarioD_eq]
    decide
  have he := h.2.2.2.2 1 2 (by decide) (by norm_num)
  exact ⟨(h.1 hc).1, (h.1 hc).2.1, he.1, he.2⟩

/-- C6: on an unlocked account, disputing a Normal entry and immediately
resolving it both succeed and restore available and held to their exact
pre-dispute values, with the ledger entry back in Normal state. -/
theorem dispute_resolve_roundtrip (a : Account) (tx : Nat) (e : LedgerEntry)
    (hl : a.is_locked = false) (he : a.ledger.getEntry tx = some e)
    (hn : e.state = .Normal) :
    (a.dispute tx).2 = .ok () ∧
    ((a.dispute tx).1.resolve tx).2 = .ok () ∧
    ((a.dispute tx).1.resolve tx).1.available = a.available ∧
    ((a.dispute tx).1.resolve tx).1.held = a.held ∧
    ((a.dispute tx).1.resolve tx).1.ledger.getEntry tx = some e := by
  have hd := Account.dispute_of_normal hl he hn
  have hl2 : (a.dispute tx).1.is_locked = false := by rw [hd]; exact hl
  have hget2 : (a.dispute tx).1.ledger.getEntry tx =
      some { e with state := .Disputed } := by
    rw [hd]
    show (a.ledger.setState tx .Disputed).getEntry tx = _
    rw [Ledger.getEntry_setState_self, he]
    rfl
  have hr := Account.resolve_of_disputed hl2 hget2 rfl
  refine ⟨by rw [hd], by rw [hr], ?_, ?_, ?_⟩
  · rw [hr]
    show (a.dispute tx).1.available + e.amount = a.available
    rw [hd]
    show a.available - e.amount + e.amount = a.available
    ring
  · rw [hr]
    show (a.dispute tx).1.held - e.amount = a.held
    rw [hd]
    show a.held + e.amount - e.amount = a.held
    ring
  · rw [hr]
    show ((a.dispute tx).1.ledger.setState tx .Normal).getEntry tx = some e
    rw [Ledger.getEntry_setState_self, hget2]
    show some { e with state := .Normal } = some e
    cases e with
    | mk amt st =>
      have hst : st = .Normal := hn
      rw [hst]

/-- Witness for C6: disputing tx 24 on the Scenario B account and resolving
it restores available 36 and held 0 with the entry back to Normal. -/
theorem dispute_resolve_roundtrip_witness :
    ((scenarioB.dispute 24).1.resolve 24).2 = .ok () ∧
    ((scenarioB.dispute 24).1.resolve 24).1.available = scenarioB.available ∧
    ((scenarioB.dispute 24).1.resolve 24).1.held = scenarioB.held ∧
    ((scenarioB.dispute 24).1.resolve 24).1.ledger.getEntry 24 =
      some { amount := -64, state := .Normal } := by
  have h := dispute_resolve_roundtrip scenarioB 24 { amount := -64, state := .Normal }
    (by rw [scenarioB_eq]) (by rw [scenarioB_eq]; simp [Ledger.getEntry_cons]) rfl
  exact ⟨h.2.1, h.2.2.1, h.2.2.2.1, h.2.2.2.2⟩

/-- C7: on an unlocked account, dispute, resolve and chargeback against an
unknown transaction id, or against an entry whose state does not match the
operation, succeed as silent no-ops leaving the whole account unchanged; a
second dispute in succession on the same entry is such a no-op. -/
theorem unknown_or_mismatched_reference_is_noop (a : Account) (tx : Nat)
    (hl : a.is_locked = false) :
    (a.ledger.getEntry tx = none →
      a.dispute tx = (a, .ok ()) ∧ a.resolve tx = (a, .ok ()) ∧
      a.chargeback tx = (a, .ok ())) ∧
    (∀ e, a.ledger.getEntry tx = some e →
      (e.state ≠ .Normal → a.dispute tx = (a, .ok ())) ∧
      (e.state ≠ .Disputed →
        a.resolve tx = (a, .ok ()) ∧ a.chargeback tx = (a, .ok ()))) ∧
    (a.dispute tx).1.dispute tx = ((a.dispute tx).1, .ok ()) := by
  refine ⟨fun hnone => ⟨Account.dispute_of_none hl hnone,
      Account.resolve_of_none hl hnone, Account.chargeback_of_none hl hnone⟩,
    fun e he => ⟨fun hn => Account.dispute_of_not_normal hl he hn,
      fun hd => ⟨Account.resolve_of_not_disputed hl he hd,
        Account.chargeback_of_not_disputed hl he hd⟩⟩, ?_⟩
  cases hget : a.ledger.getEntry tx with
  | none =>
    rw [Account.dispute_of_none hl hget]
    exact Account.dispute_of_none hl hget
  | some e =>
    by_cases hn : e.state = .Normal
    · have hd := Account.dispute_of_normal hl hget hn
      have hl2 : (a.dispute tx).1.is_locked = false := by rw [hd]; exact hl
      have hget2 : (a.dispute tx).1.ledger.getEntry tx =
          some { e with state := .Disputed } := by
        rw [hd]
        show (a.ledger.setState tx .Disputed).getEntry tx = _
        rw [Ledger.getEntry_setState_self, hget]
        rfl
      exact Account.dispute_of_not_normal hl2 hget2 (by intro hc; cases hc)
    · rw [Account.dispute_of_not_normal hl hget hn]
      exact Account.dispute_of_not_normal hl hget hn

/-- Witness for C7: on a fresh account, dispute, resolve and chargeback of
the never-seen tx 82 all succeed and change nothing. -/
theorem unknown_or_mismatched_reference_is_noop_witness :
    (Account.new 1).dispute 82 = (Account.new 1, .ok ()) ∧
    (Account.new 1).resolve 82 = (Account.new 1, .ok ()) ∧
    (Account.new 1).chargeback 82 = (Account.new 1, .ok ()) := by
  have h := unknown_or_mismatched_reference_is_noop (Account.new 1) 82 rfl
  exact h.1 rfl

/-- C8: for every account state, the derived total and the total reported in
the summary both equal available plus held exactly; the Account structure
stores no total field, it is computed at read time. -/
theorem total_equals_available_plus_held :
    ∀ a : Account, a.total = a.available + a.held ∧
      a.summary.total = a.summary.available + a.summary.held :=
  fun _ => ⟨rfl, rfl⟩

namespace TransactionEngine

theorem account_summary_perm (e : TransactionEngine) :
    e.account_summary.Perm (e.accounts.map (fun p => p.2.summary)) :=
  List.perm_insertionSort _ _

theorem account_summary_sorted_le (e : TransactionEngine) :
    e.account_summary.Sorted (fun s t => s.id ≤ t.id) := by
  haveI : IsTotal AccountSummary (fun s t => s.id ≤ t.id) :=
    ⟨fun a b => Nat.le_total a.id b.id⟩
  haveI : IsTrans AccountSummary (fun s t => s.id ≤ t.id) :=
    ⟨fun a b c h1 h2 => Nat.le_trans h1 h2⟩
  exact List.sorted_insertionSort _ _

theorem summary_ids_nodup (e : TransactionEngine)
    (hkeys : (e.accounts.map (fun p => p.1)).Nodup)
    (hid : ∀ p ∈ e.accounts, p.2.id = p.1) :
    (e.account_summary.map (fun s => s.id)).Nodup := by
  have hmap : e.accounts.map (fun p => p.2.summary.id) =
      e.accounts.map (fun p => p.1) :=
    List.map_congr_left (fun p hp => hid p hp)
  have h1 : ((e.accounts.map (fun p => p.2.summary)).map (fun s => s.id)).Nodup := by
    rw [List.map_map]
    show (e.accounts.map (fun p => p.2.summary.id)).Nodup
    rw [hmap]
    exact hkeys
  exact ((e.account_summary_perm).map (fun s => s.id)).nodup_iff.mpr h1

theorem account_summary_sorted_lt (e : TransactionEngine)
    (hkeys : (e.accounts.map (fun p => p.1)).Nodup)
    (hid : ∀ p ∈ e.accounts, p.2.id = p.1) :
    e.account_summary.Sorted (fun s t => s.id < t.id) := by
  have hle := e.account_summary_sorted_le
  have hnd := e.summary_ids_nodup hkeys hid
  have hne : e.account_summary.Pairwise (fun s t => s.id ≠ t.id) :=
    List.pairwise_map.mp hnd
  exact (hle.and hne).imp (fun h => Nat.lt_of_le_of_ne h.1 h.2)

end TransactionEngine

/-- C9: the engine's account summary contains exactly one summary per owned
account (it is a permutation of the per-account summaries), is sorted by
ascending client id, and is the same list for every iteration order of the
account map over the same accounts (deterministic output). -/
theorem account_summary_sorted_deterministic (e : TransactionEngine)
    (hkeys : (e.accounts.map (fun p => p.1)).Nodup)
    (hid : ∀ p ∈ e.accounts, p.2.id = p.1) :
    e.account_summary.Perm (e.accounts.map (fun p => p.2.summary)) ∧
    e.account_summary.Sorted (fun s t => s.id ≤ t.id) ∧
    ∀ e2 : TransactionEngine, e2.accounts.Perm e.accounts →
      e2.account_summary = e.account_summary := by
  refine ⟨e.account_summary_perm, e.account_summary_sorted_le, fun e2 hp => ?_⟩
  have hkeys2 : (e2.accounts.map (fun p => p.1)).Nodup :=
    ((hp.map (fun p => p.1)).nodup_iff).mpr hkeys
  have hid2 : ∀ p ∈ e2.accounts, p.2.id = p.1 := fun p hm => hid p (hp.subset hm)
  have hperm : e2.account_summary.Perm e.account_summary :=
    (e2.account_summary_perm).trans
      ((hp.map (fun p => p.2.summary)).trans (e.account_summary_perm).symm)
  haveI : IsAntisymm AccountSummary (fun s t => s.id < t.id) :=
    ⟨fun a b h1 h2 => absurd (Nat.lt_trans h1 h2) (Nat.lt_irrefl _)⟩
  exact List.eq_of_perm_of_sorted hperm
    (e2.account_summary_sorted_lt hkeys2 hid2)
    (e.account_summary_sorted_lt hkeys hid)

/-- Engine with the accounts of clients 2 and 1 stored in that order. -/
def engW : TransactionEngine :=
  { accounts := [(2, Account.new 2), (1, Account.new 1)] }

/-- The same two accounts stored in the opposite order. -/
def engW2 : TransactionEngine :=
  { accounts := [(1, Account.new 1), (2, Account.new 2)] }

/-- Witness for C9: the two storage orders of the same two accounts produce
the identical sorted summary list. -/
theorem account_summary_sorted_deterministic_witness :
    engW2.account_summary = engW.account_summary := by
  have h := account_summary_sorted_deterministic engW (by decide) (by decide)
  exact h.2.2 engW2 (List.Perm.swap (2, Account.new 2) (1, Account.new 1) [])

theorem toDigitsCore_length_le (b : Nat) :
    ∀ (f n : Nat) (l : List Char), l.length ≤ (Nat.toDigitsCore b f n l).length := by
  intro f
  induction f with
  | zero => intro n l; exact Nat.le_refl _
  | succ f ih =>
    intro n l
    show l.length ≤ (Nat.toDigitsCore b (f + 1) n l).length
    rw [Nat.toDigitsCore]
    by_cases h : n / b = 0
    · simp [h]
    · simp only [h, if_false]
      exact Nat.le_trans (Nat.le_succ _) (ih (n / b) (Nat.digitChar (n % b) :: l))

theorem repr_length_pos (n : Nat) : 1 ≤ (Nat.repr n).length := by
  show 1 ≤ (Nat.toDigits 10 n).asString.length
  rw [List.length_asString]
  show 1 ≤ (Nat.toDigitsCore 10 (n + 1) n []).length
  rw [Nat.toDigitsCore]
  by_cases h : n / 10 = 0
  · simp [h]
  · simp only [h, if_false]
    exact Nat.le_trans (by exact Nat.le_refl 1)
      (toDigitsCore_length_le 10 n (n / 10) [Nat.digitChar (n % 10)])

/-- C10 counterexample: the stored decimal 0.0 (mantissa 0, scale 1) is
exactly equal to zero but serializes as "0.0", not as "0". -/
theorem serialize_decimal_zero_counterexample :
    Decimal.toRat { mantissa := 0, scale := 1 } = 0 ∧
    serialize_decimal { mantissa := 0, scale := 1 } = "0.0" ∧
    serialize_decimal { mantissa := 0, scale := 1 } ≠ "0" :=
  ⟨by norm_num [Decimal.toRat], by decide, by decide⟩

/-- C10 amended: serialization rounds to at most 4 fractional digits (the
rounded value's scale never exceeds 4) and always prints at least one digit
before any decimal point; trailing zeros reflect the stored scale up to the
rounding rather than the numeric value alone: a zero stored with scale 0
serializes as "0" while a zero stored with fractional scale keeps its
fractional digits ("0.0"); 0.00009 rounds up to "0.0001". -/
theorem serialize_decimal_scale_behaviour :
    (∀ d : Decimal, (d.round_dp 4).scale ≤ 4) ∧
    (∀ d : Decimal,
      1 ≤ (toString (d.mantissa.natAbs / 10 ^ d.scale)).length) ∧
    serialize_decimal { mantissa := 0, scale := 0 } = "0" ∧
    serialize_decimal { mantissa := 0, scale := 1 } = "0.0" ∧
    serialize_decimal { mantissa := 9, scale := 5 } = "0.0001" ∧
    serialize_decimal { mantissa := 1, scale := 6 } = "0.0000" ∧
    serialize_decimal { mantissa := 1328973498, scale := 8 } = "13.2897" := by
  refine ⟨?_, ?_, by decide, by decide, by decide, by decide, by decide⟩
  · intro d
    rw [Decimal.round_dp]
    by_cases h : d.scale ≤ 4
    · rw [if_pos h]
      exact h
    · rw [if_neg h]
  · intro d
    exact repr_length_pos _

end TxEngine
